import Mathlib

/-!
Verification development for the `mt_remote` trading event-source library.

The development shallowly embeds the Python sources:
  * `mt_remote/promise.py`  — the `Promise` settlement object,
  * `mt_remote/order.py`    — order signals and the order value,
  * `mt_remote/source.py`   — the event dispatcher (`BaseEventSource`) and
    the CSV backtest engine (`CsvEventSource`) with its order-fulfillment
    state machine, plus the settlement calculator `order_single`/`order_gain`,
  * `mt_remote/bar.py`      — the `Bar` record with its high/low validation
    and the period-string grammar.

Python floats are modelled as rationals (the engine only ever adds,
subtracts, multiplies and compares them).  Python exceptions are modelled
with `Except` over an explicit error type.  Callback functions are modelled
as opaque handler tags: settling a promise returns the list of tags fired,
in invocation order; the engine interprets its one internal handler (the
`clear_order` closure registered by `update_order`) and treats every other
tag as an external observer without engine effects.
-/

namespace MT

/-- Python exception kinds raised by the modelled code paths. -/
inductive PyError
  | valueError (msg : String)
  | typeError (msg : String)
  | assertionError (msg : String)
  | attributeError (msg : String)
  | orderQueueError (msg : String)
deriving DecidableEq

/-- `OrderSignal` enum from `order.py`. -/
inductive OrderSignal
  | buy
  | sell
  | out
deriving DecidableEq

/-- The `Order` value: the `signal` property (which defaults `None` to `out`)
and the optional integer `volume`.  The constructor validation of
`Order.__init__` (signal/volume consistency) is orthogonal to the claims and
not re-checked here; the fulfillment code reads exactly these two fields. -/
structure Order where
  signal : OrderSignal
  volume : Option ℤ
deriving DecidableEq

/-- `order_gain` from `source.py`: gain per unit volume; asserts the signal
is `buy` or `sell`. -/
def order_gain (signal : OrderSignal) (in_price out_price : ℚ) : Except PyError ℚ :=
  match signal with
  | .buy => .ok (out_price - in_price)
  | .sell => .ok (in_price - out_price)
  | .out => .error (.assertionError "Can\x27t handle order type")

/-- `order_single` from `source.py`: exit-side value per unit volume,
`in_price + order_gain signal in_price out_price`. -/
def order_single (signal : OrderSignal) (in_price out_price : ℚ) : Except PyError ℚ :=
  match order_gain signal in_price out_price with
  | .error e => .error e
  | .ok g => .ok (in_price + g)

/-- The `Promise` object from `promise.py`.  `π` is the settlement payload
type (the `*args` of `accept`/`reject`), `h` the type of handler tags.
`done_success`/`done_args` mirror `_done_success`/`_done_args`. -/
structure Promise (π : Type) (h : Type) where
  then_handlers : List h
  catch_handlers : List h
  always_handlers : List h
  done_success : Option Bool
  done_args : Option π
deriving DecidableEq

/-- A freshly constructed promise: `Promise()`. -/
def Promise.empty : Promise π h :=
  { then_handlers := [], catch_handlers := [], always_handlers := [],
    done_success := none, done_args := none }

/-- `Promise.accept`: asserts the promise is pending, records the success
and the payload, and fires all `then` handlers followed by all `always`
handlers.  The returned list is the handlers fired, in invocation order. -/
def Promise.accept (p : Promise π h) (args : π) :
    Except PyError (Promise π h × List h) :=
  match p.done_success with
  | some _ => .error (.assertionError "Can\x27t complete multiple times")
  | none =>
      .ok ({ p with done_success := some true, done_args := some args },
           p.then_handlers ++ p.always_handlers)

/-- `Promise.reject`: asserts the promise is pending, records the failure
and the payload, and fires all `catch` handlers followed by all `always`
handlers, in invocation order. -/
def Promise.reject (p : Promise π h) (args : π) :
    Except PyError (Promise π h × List h) :=
  match p.done_success with
  | some _ => .error (.assertionError "Can\x27t complete multiple times")
  | none =>
      .ok ({ p with done_success := some false, done_args := some args },
           p.catch_handlers ++ p.always_handlers)

/-- One registration call on a promise: `then`, `catch` or `always`,
carrying the handler tag registered. -/
inductive Reg (h : Type)
  | then_r (f : h)
  | catch_r (f : h)
  | always_r (f : h)
deriving DecidableEq

/-- `Promise.then` / `Promise.catch` / `Promise.always`: append the handler
to the relevant list; if the relevant outcome already happened, the handler
fires immediately (returned as the second component). -/
def Promise.register (p : Promise π h) : Reg h → Promise π h × List h
  | .then_r f =>
      ({ p with then_handlers := p.then_handlers ++ [f] },
       match p.done_success with
       | some true => [f]
       | _ => [])
  | .catch_r f =>
      ({ p with catch_handlers := p.catch_handlers ++ [f] },
       match p.done_success with
       | some false => [f]
       | _ => [])
  | .always_r f =>
      ({ p with always_handlers := p.always_handlers ++ [f] },
       match p.done_success with
       | some _ => [f]
       | none => [])

/-- The promise obtained by performing a sequence of registrations on a
fresh (pending) promise, in order. -/
def Promise.of_regs (regs : List (Reg h)) : Promise (List String) h :=
  regs.foldl (fun p r => (p.register r).1) Promise.empty

/-- The `then` handlers of a registration sequence, in registration order. -/
def sel_then : List (Reg h) → List h
  | [] => []
  | .then_r f :: rs => f :: sel_then rs
  | _ :: rs => sel_then rs

/-- The `catch` handlers of a registration sequence, in registration order. -/
def sel_catch : List (Reg h) → List h
  | [] => []
  | .catch_r f :: rs => f :: sel_catch rs
  | _ :: rs => sel_catch rs

/-- The `always` handlers of a registration sequence, in registration order. -/
def sel_always : List (Reg h) → List h
  | [] => []
  | .always_r f :: rs => f :: sel_always rs
  | _ :: rs => sel_always rs

/-- The order the spec predicts for success settlement: all success-or-always
handlers in their overall registration order, interleaved across the two
kinds.  (Stated from the words of the claim, to be compared with the code.) -/
def spec_accept_order : List (Reg h) → List h
  | [] => []
  | .then_r f :: rs => f :: spec_accept_order rs
  | .always_r f :: rs => f :: spec_accept_order rs
  | .catch_r _ :: rs => spec_accept_order rs

/-- Handler tags for the engine promise: the internal `clear_order` closure
registered by `update_order`, or an external caller-registered handler. -/
inductive EngineHandler
  | clear_order
  | ext (k : ℕ)
deriving DecidableEq

/-- The promise type held by an event source: payload is the settlement
argument list, handlers are `EngineHandler` tags. -/
abbrev EPromise := Promise (List String) EngineHandler

/-- `Tick` record from `tick.py` (price only; the timestamp plays no role in
the modelled claims). -/
structure Tick where
  price : Option ℚ
deriving DecidableEq

/-- Mutable state of a `CsvEventSource`: the tracked `_balance`, the
fulfillment price `_price`, the open position `_curr_order` with its entry
price `_curr_order_price`, and the queue slot `_order`/`_order_promise`
inherited from `BaseEventSource`. -/
structure SourceState where
  balance : ℚ
  price : Option ℚ
  curr_order : Option Order
  curr_order_price : Option ℚ
  order : Option Order
  order_promise : Option EPromise
deriving DecidableEq

/-- `order_in_progress`: an order promise is present. -/
def SourceState.order_in_progress (s : SourceState) : Bool :=
  s.order_promise.isSome

/-- `BaseEventSource.update_order`: raise `OrderQueueError` when an order is
in progress (the state is returned unchanged in that case, mirroring the
exception leaving `self` untouched); otherwise create a fresh promise, hook
the internal `clear_order` closure on its `always` list, and store order and
promise in the queue slot.  Returns the updated state and the promise. -/
def SourceState.update_order (s : SourceState) (o : Order) :
    SourceState × Except PyError EPromise :=
  if s.order_in_progress then
    (s, .error (.orderQueueError "Order already being fulfilled"))
  else
    let p : EPromise := ((Promise.empty).register (.always_r .clear_order)).1
    ({ s with order := some o, order_promise := some p }, .ok p)

/-- Interpretation of the handler tags fired by a promise settlement: the
internal `clear_order` closure resets the queue slot (`_order` and
`_order_promise` both to `None`); external handler tags have no engine
effect.  Handlers run in the order the promise fired them. -/
def SourceState.run_handlers (s : SourceState) (fired : List EngineHandler) :
    SourceState :=
  fired.foldl
    (fun st f =>
      match f with
      | .clear_order => { st with order := none, order_promise := none }
      | .ext _ => st)
    s

/-- One kind of observable event emitted while fulfilling: a settlement of
the queued promise (success flag, payload, handlers fired) or a balance
update pushed through `_update_balance`. -/
inductive TraceEv
  | settle (success : Bool) (args : List String) (fired : List EngineHandler)
  | balance_set (v : ℚ)
deriving DecidableEq

/-- Settle the queued order promise (`self.order_promise.accept(...)` or
`.reject(...)`) and run the fired handlers against the engine state. -/
def SourceState.settle (s : SourceState) (success : Bool) (args : List String) :
    Except PyError (SourceState × TraceEv) :=
  match s.order_promise with
  | none => .error (.attributeError "NoneType object has no attribute")
  | some p =>
      match (if success then p.accept args else p.reject args) with
      | .error e => .error e
      | .ok (p2, fired) =>
          .ok (SourceState.run_handlers { s with order_promise := some p2 } fired,
               .settle success args fired)

/-- `CsvEventSource.balance_total`: the balance, plus the mark-to-market
value `volume * order_single(signal, entry, current)` of the open position
when one exists. -/
def SourceState.balance_total (s : SourceState) : Except PyError ℚ :=
  match s.curr_order with
  | none => .ok s.balance
  | some co =>
      match co.volume, s.curr_order_price, s.price with
      | some v, some cop, some pr =>
          match order_single co.signal cop pr with
          | .error e => .error e
          | .ok g => .ok (s.balance + v * g)
      | _, _, _ => .error (.typeError "unsupported operand type")

/-- `CsvEventSource._fulfill_order_out`: with no open position, reject the
queued promise with "No open order"; otherwise read `balance_total`, clear
the open position when `clear_order` is set, and push the realized total as
the new balance.  Note the queued promise is not settled on this path. -/
def SourceState.fulfill_order_out (s : SourceState) (clear_order : Bool) :
    Except PyError (SourceState × List TraceEv) :=
  match s.curr_order with
  | none =>
      match s.settle false ["No open order"] with
      | .error e => .error e
      | .ok (s1, ev) => .ok (s1, [ev])
  | some _ =>
      match s.balance_total with
      | .error e => .error e
      | .ok bt =>
          let s1 :=
            if clear_order then
              { s with curr_order := none, curr_order_price := none }
            else s
          .ok ({ s1 with balance := bt }, [.balance_set bt])

/-- `CsvEventSource._fulfill_order_in`: when an open position with a
different signal exists, first realize it through `_fulfill_order_out`
without clearing it; then compare the entry cost `price * volume` with the
balance: too expensive rejects the promise with "Account balance too low",
otherwise the position is recorded at the current price, the cost debited,
and the promise accepted. -/
def SourceState.fulfill_order_in (s : SourceState) :
    Except PyError (SourceState × List TraceEv) :=
  match s.order with
  | none => .error (.attributeError "NoneType object has no attribute")
  | some o =>
      let flat : Except PyError (SourceState × List TraceEv) :=
        match s.curr_order with
        | some co =>
            if o.signal ≠ co.signal then s.fulfill_order_out false
            else .ok (s, [])
        | none => .ok (s, [])
      match flat with
      | .error e => .error e
      | .ok (s1, tr1) =>
          match s1.price, o.volume with
          | some pr, some v =>
              if s1.balance < pr * v then
                match s1.settle false ["Account balance too low"] with
                | .error e => .error e
                | .ok (s2, ev) => .ok (s2, tr1 ++ [ev])
              else
                let s2 := { s1 with curr_order := some o,
                                    curr_order_price := some pr }
                let s3 := { s2 with balance := s2.balance - pr * v }
                match s3.settle true [] with
                | .error e => .error e
                | .ok (s4, ev) =>
                    .ok (s4, tr1 ++ [TraceEv.balance_set (s2.balance - pr * v), ev])
          | _, _ => .error (.typeError "unsupported operand type")

/-- `CsvEventSource._fulfill_order`: a no-op when nothing is queued;
dispatches on the queued signal otherwise. -/
def SourceState.fulfill_order (s : SourceState) :
    Except PyError (SourceState × List TraceEv) :=
  match s.order with
  | none => .ok (s, [])
  | some o =>
      if o.signal = OrderSignal.out then s.fulfill_order_out true
      else s.fulfill_order_in

/-- `CsvEventSource.handle_tick`: set `_price` to the tick price and run the
fulfillment step. -/
def SourceState.handle_tick (s : SourceState) (t : Tick) :
    Except PyError (SourceState × List TraceEv) :=
  SourceState.fulfill_order { s with price := t.price }

/-- `BarPeriod` enum from `bar.py`. -/
inductive BarPeriod
  | seconds
  | minutes
  | hours
  | days
  | weeks
  | months
  | years
deriving DecidableEq

/-- Canonical unit name: the value of the `BarPeriod` enum member. -/
def unit_text (u : BarPeriod) : String :=
  match u with
  | .seconds => "seconds"
  | .minutes => "minutes"
  | .hours => "hours"
  | .days => "days"
  | .weeks => "weeks"
  | .months => "months"
  | .years => "years"

/-- Decimal digit character for a value below ten. -/
def digit_char (n : ℕ) : Char :=
  match n with
  | 0 => '0'
  | 1 => '1'
  | 2 => '2'
  | 3 => '3'
  | 4 => '4'
  | 5 => '5'
  | 6 => '6'
  | 7 => '7'
  | 8 => '8'
  | 9 => '9'
  | _ => '0'

/-- Standard decimal digit string of a natural number, most significant
digit first. -/
def nat_digits (n : ℕ) : List Char :=
  if _h : n < 10 then [digit_char n]
  else nat_digits (n / 10) ++ [digit_char (n % 10)]
decreasing_by exact Nat.div_lt_self (by omega) (by omega)

/-- Value of a decimal digit string (as produced by the period regex, which
only ever captures `[0-9]+`); this is `int(s, base=10)` on such a string. -/
def list_to_nat (cs : List Char) : ℕ :=
  cs.foldl (fun a c => 10 * a + (c.toNat - 48)) 0

/-- Model of `PERIOD_SPLIT_RE.search` for the pattern `([0-9]+)(.*)`:
locate the first digit, capture the maximal digit run there, and capture the
remainder of the line (the `.` of the pattern does not cross a newline).
`none` when the string has no digit. -/
def period_split (cs : List Char) : Option (List Char × List Char) :=
  let rest := cs.dropWhile (fun c => !c.isDigit)
  match rest with
  | [] => none
  | _ :: _ =>
      some (rest.takeWhile Char.isDigit,
            (rest.dropWhile Char.isDigit).takeWhile (fun c => c != '\n'))

/-- Python `str.strip()`: drop whitespace from both ends. -/
def strip_ws (cs : List Char) : List Char :=
  ((cs.dropWhile Char.isWhitespace).reverse.dropWhile Char.isWhitespace).reverse

/-- `big.startswith(small)` on character lists. -/
def starts_with : List Char → List Char → Bool
  | _, [] => true
  | [], _ :: _ => false
  | a :: as, b :: bs => a == b && starts_with as bs

/-- The unit-matching chain of the period setter: each canonical name (and
the extra abbreviations for hours, weeks, months, years) is tested with
`startswith` against the lower-cased, stripped unit text. -/
def match_unit (unit : List Char) : Except PyError BarPeriod :=
  if starts_with "seconds".data unit then .ok .seconds
  else if starts_with "minutes".data unit then .ok .minutes
  else if starts_with "hours".data unit || starts_with "hrs".data unit then .ok .hours
  else if starts_with "days".data unit then .ok .days
  else if starts_with "weeks".data unit || starts_with "wks".data unit then .ok .weeks
  else if starts_with "months".data unit || starts_with "mnths".data unit
       || starts_with "mns".data unit then .ok .months
  else if starts_with "years".data unit || starts_with "yrs".data unit then .ok .years
  else .error (.valueError ("Unknown time unit \x27" ++ String.mk unit ++ "\x27"))

/-- An element of a pre-parsed period pair, as Python would receive it:
an integer, a float, a string, a `BarPeriod` member, or anything else. -/
inductive PElem
  | int_ (n : ℤ)
  | float_ (q : ℚ)
  | str (s : String)
  | unit_ (u : BarPeriod)
  | other
deriving DecidableEq

/-- Strict base-10 `int(s)` on a string: optional sign followed by one or
more digits (a model sufficient for the inputs the claims exercise). -/
def parse_int_str (s : String) : Option ℤ :=
  match s.data with
  | '-' :: ds => if ds ≠ [] ∧ ds.all Char.isDigit then some (-(list_to_nat ds : ℤ)) else none
  | ds => if ds ≠ [] ∧ ds.all Char.isDigit then some ((list_to_nat ds : ℤ)) else none

/-- `util.parse_int` applied to a pre-parsed period element: ints and floats
truncate, strings parse in base 10, anything else is a `TypeError`. -/
def parse_int_pe : PElem → Except PyError ℤ
  | .int_ n => .ok n
  | .float_ q => .ok (q.num.tdiv q.den)
  | .str s =>
      match parse_int_str s with
      | some n => .ok n
      | none =>
          .error (.valueError ("invalid literal for int() with base 10: \x27" ++ s ++ "\x27"))
  | .unit_ _ => .error (.typeError "int() argument must be a string or a number")
  | .other => .error (.typeError "int() argument must be a string or a number")

/-- The raw `period` argument: absent, a string, or a tuple/list of
elements. -/
inductive PeriodInput
  | none_
  | str (s : String)
  | pair_ (xs : List PElem)
deriving DecidableEq

/-- The `Bar.period` property setter: `None` stays unset; a string is split
by the period regex, its digits parsed in base 10 and its unit text matched
(lower-cased and stripped) by the `startswith` chain; a tuple or list must
have exactly two elements, the second a `BarPeriod`, the first coerced by
`parse_int`. -/
def period_set : PeriodInput → Except PyError (Option (ℤ × BarPeriod))
  | .none_ => .ok none
  | .str s =>
      match period_split s.data with
      | none => .error (.valueError ("Couldn\x27t parse period \x27" ++ s ++ "\x27"))
      | some (vcs, ucs) =>
          let value : ℤ := (list_to_nat vcs : ℤ)
          let unit := strip_ws (ucs.map Char.toLower)
          match match_unit unit with
          | .error e => .error e
          | .ok u => .ok (some (value, u))
  | .pair_ xs =>
      if xs.length ≠ 2 then .error (.valueError "Must have exactly 2 elements in period")
      else
        match xs with
        | [a, b] =>
            match b with
            | .unit_ u =>
                match parse_int_pe a with
                | .error e => .error e
                | .ok n => .ok (some (n, u))
            | _ => .error (.typeError "Second period tuple element must be a BarPeriod value")
        | _ => .error (.valueError "Must have exactly 2 elements in period")

/-- A raw O/H/L/C/V field value: absent, a string, or a number. -/
inductive Raw
  | none_
  | str (s : String)
  | num (q : ℚ)
deriving DecidableEq

/-- The `%s` rendering of a raw value, used in the high/low error message. -/
def raw_str : Raw → String
  | .none_ => "None"
  | .str s => s
  | .num q => toString q

/-- Python `float(s)` restricted to plain decimal literals: optional minus
sign, digits, optional fraction (a model sufficient for the inputs the
claims exercise). -/
def parse_float (s : String) : Option ℚ :=
  let core : List Char → Option ℚ := fun cs =>
    let ip := cs.takeWhile Char.isDigit
    match cs.dropWhile Char.isDigit with
    | [] => if ip = [] then none else some ((list_to_nat ip : ℚ))
    | '.' :: fp =>
        if (ip ≠ [] ∨ fp ≠ []) ∧ fp.all Char.isDigit then
          some ((list_to_nat ip : ℚ) + (list_to_nat fp : ℚ) / (10 : ℚ) ^ fp.length)
        else none
    | _ => none
  match s.data with
  | '-' :: cs => (core cs).map (fun q => -q)
  | cs => core cs

/-- Parse one numeric bar field: `None` and the empty string are absent,
anything else goes through `float`. -/
def parse_field (r : Raw) : Except PyError (Option ℚ) :=
  match r with
  | .none_ => .ok none
  | .str s =>
      if s = "" then .ok none
      else
        match parse_float s with
        | some q => .ok (some q)
        | none => .error (.valueError ("could not convert string to float: \x27" ++ s ++ "\x27"))
  | .num q => .ok (some q)

/-- Parse the volume field: `None` and the empty string are absent, strings
go through base-10 `int`, numbers truncate. -/
def parse_vol (r : Raw) : Except PyError (Option ℤ) :=
  match r with
  | .none_ => .ok none
  | .str s =>
      if s = "" then .ok none
      else
        match parse_int_str s with
        | some n => .ok (some n)
        | none =>
            .error (.valueError ("invalid literal for int() with base 10: \x27" ++ s ++ "\x27"))
  | .num q => .ok (some (q.num.tdiv q.den))

/-- Validated `Bar` record (the timestamp, parsed last by an external
ISO8601 library, is orthogonal to every claim and left out of the model). -/
structure Bar where
  open_ : Option ℚ
  high : Option ℚ
  low : Option ℚ
  close : Option ℚ
  volume : Option ℤ
  period : Option (ℤ × BarPeriod)
deriving DecidableEq

/-- `Bar.__init__` maps an empty-string `period` argument to `None` before
it reaches the property setter. -/
def blank_to_none (p : PeriodInput) : PeriodInput :=
  match p with
  | .str s => if s = "" then .none_ else .str s
  | q => q

/-- `Bar.__init__`: parse open, high, low, close and volume in order, check
`high >= low` when both are present (the error message carries both raw
values), then run the period setter. -/
def Bar.mk_checked (period : PeriodInput) (open_ high low close volume : Raw) :
    Except PyError Bar :=
  match parse_field open_ with
  | .error e => .error e
  | .ok ov =>
  match parse_field high with
  | .error e => .error e
  | .ok hv =>
  match parse_field low with
  | .error e => .error e
  | .ok lv =>
  match parse_field close with
  | .error e => .error e
  | .ok cv =>
  match parse_vol volume with
  | .error e => .error e
  | .ok vv =>
      let finish : Unit → Except PyError Bar := fun _ =>
        match period_set (blank_to_none period) with
        | .error e => .error e
        | .ok pv =>
            .ok { open_ := ov, high := hv, low := lv, close := cv,
                  volume := vv, period := pv }
      match hv, lv with
      | some hq, some lq =>
          if hq < lq then
            .error (.valueError ("High (" ++ raw_str high ++ ") is less than low ("
                                 ++ raw_str low ++ ")"))
          else finish ()
      | _, _ => finish ()

/-- `CsvEventSource.handle_bar`: set `_price` to the bar close when present,
otherwise to the bar open (even when that is also absent), then run the
fulfillment step. -/
def SourceState.handle_bar (s : SourceState) (b : Bar) :
    Except PyError (SourceState × List TraceEv) :=
  SourceState.fulfill_order
    { s with price := match b.close with | some c => some c | none => b.open_ }

/-- Subscriber-list state of a `BaseEventSource` dispatcher: ordered handler
lists for ticks, bars and balance updates, plus `_current_price`.  Handlers
are opaque tags. -/
structure BaseSource (h : Type) where
  tick_handlers : List h
  bar_handlers : List h
  balance_handlers : List h
  current_price : Option ℚ
deriving DecidableEq

/-- `on_bar`: append a bar subscriber (no de-duplication). -/
def BaseSource.on_bar (s : BaseSource h) (f : h) : BaseSource h :=
  { s with bar_handlers := s.bar_handlers ++ [f] }

/-- `on_tick`: append a tick subscriber. -/
def BaseSource.on_tick (s : BaseSource h) (f : h) : BaseSource h :=
  { s with tick_handlers := s.tick_handlers ++ [f] }

/-- `BaseEventSource._add_bar`: update `_current_price` from the bar close
when present, else from the bar open when present, else leave it; then fire
every bar subscriber, in list order, with the bar.  The returned list is the
subscribers invoked, in invocation order. -/
def BaseSource.add_bar (s : BaseSource h) (b : Bar) : BaseSource h × List h :=
  let s1 :=
    match b.close with
    | some c => { s with current_price := some c }
    | none =>
        match b.open_ with
        | some o => { s with current_price := some o }
        | none => s
  (s1, s1.bar_handlers)

/-- `BaseEventSource._add_tick`: update `_current_price` from the tick price
when present, then fire every tick subscriber in list order. -/
def BaseSource.add_tick (s : BaseSource h) (t : Tick) : BaseSource h × List h :=
  let s1 :=
    match t.price with
    | some pr => { s with current_price := some pr }
    | none => s
  (s1, s1.tick_handlers)

lemma foldl_register (regs : List (Reg h)) (p : Promise (List String) h) :
    regs.foldl (fun q r => (q.register r).1) p =
      { p with then_handlers := p.then_handlers ++ sel_then regs,
               catch_handlers := p.catch_handlers ++ sel_catch regs,
               always_handlers := p.always_handlers ++ sel_always regs } := by
  induction regs generalizing p with
  | nil => simp [sel_then, sel_catch, sel_always]
  | cons r rs ih =>
      rw [List.foldl_cons, ih]
      cases r <;>
        simp [Promise.register, sel_then, sel_catch, sel_always, List.append_assoc]

/-- C2 (counterexample): registering an `always` handler (tag 0) and then a
`then` handler (tag 1) and fulfilling fires them as `[1, 0]`, while the
claim predicts overall registration order `[0, 1]`. -/
theorem C2_counterexample :
    (Except.map Prod.snd ((Promise.of_regs [Reg.always_r 0, Reg.then_r 1]).accept [])
        : Except PyError (List ℕ)) = .ok [1, 0]
    ∧ spec_accept_order [Reg.always_r 0, Reg.then_r 1] = [0, 1]
    ∧ ([1, 0] : List ℕ) ≠ [0, 1] :=
  ⟨rfl, rfl, by decide⟩

/-- C2 (amended): fulfilling (resp. rejecting) a pending promise built from
a registration sequence invokes exactly the success (resp. failure) handlers
in their registration order followed by the always handlers in their
registration order, each exactly once, all with the settlement payload. -/
theorem C2_amended (regs : List (Reg ℕ)) (pay pay2 : List String) :
    (Except.map Prod.snd ((Promise.of_regs regs).accept pay)
        : Except PyError (List ℕ)) = .ok (sel_then regs ++ sel_always regs)
    ∧ (Except.map Prod.snd ((Promise.of_regs regs).reject pay2)
        : Except PyError (List ℕ)) = .ok (sel_catch regs ++ sel_always regs)
    ∧ ((Promise.of_regs regs).accept pay).map
        (fun r => ((r.1.done_success, r.1.done_args)))
        = .ok (some true, some pay) := by
  have h : Promise.of_regs regs =
      ({ then_handlers := sel_then regs, catch_handlers := sel_catch regs,
         always_handlers := sel_always regs, done_success := none,
         done_args := none } : Promise (List String) ℕ) := by
    unfold Promise.of_regs
    rw [foldl_register]
    simp [Promise.empty]
  refine ⟨?_, ?_, ?_⟩ <;> simp [h, Promise.accept, Promise.reject, Except.map]

/-- C6: once a promise has settled through `accept` or through `reject`, any
further `accept` or `reject` call fails with the double-completion
assertion, whatever the payloads. -/
theorem C6_thm (p p1 : Promise (List String) ℕ) (pay0 pay1 pay2 : List String)
    (fr : List ℕ)
    (h : p.accept pay0 = .ok (p1, fr) ∨ p.reject pay0 = .ok (p1, fr)) :
    p1.accept pay1 = .error (.assertionError "Can\x27t complete multiple times")
    ∧ p1.reject pay2 = .error (.assertionError "Can\x27t complete multiple times") := by
  have hd : ∃ b, p1.done_success = some b := by
    rcases h with h | h <;>
      · rcases hp : p.done_success with _ | b <;>
          simp [Promise.accept, Promise.reject, hp] at h
        exact ⟨_, by rw [← h.1]⟩
  obtain ⟨b, hb⟩ := hd
  exact ⟨by simp [Promise.accept, hb], by simp [Promise.reject, hb]⟩

/-- Witness for C6 at a concrete settled promise. -/
theorem C6_witness :
    (({ then_handlers := [], catch_handlers := [], always_handlers := [],
        done_success := some true, done_args := some [] } : Promise (List String) ℕ).accept []
        = .error (.assertionError "Can\x27t complete multiple times"))
    ∧ (({ then_handlers := [], catch_handlers := [], always_handlers := [],
          done_success := some true, done_args := some [] } : Promise (List String) ℕ).reject []
        = .error (.assertionError "Can\x27t complete multiple times")) :=
  C6_thm Promise.empty _ [] [] [] [] (Or.inl rfl)

lemma run_handlers_cons (s : SourceState) (f : EngineHandler)
    (fs : List EngineHandler) :
    s.run_handlers (f :: fs) =
      SourceState.run_handlers
        (match f with
         | .clear_order => { s with order := none, order_promise := none }
         | .ext _ => s) fs := rfl

lemma run_handlers_cleared (s : SourceState) (l : List EngineHandler)
    (h1 : s.order = none) (h2 : s.order_promise = none) :
    s.run_handlers l = s := by
  induction l generalizing s with
  | nil => rfl
  | cons f fs ih =>
      rw [run_handlers_cons]
      cases f with
      | clear_order =>
          have hs : ({ s with order := none, order_promise := none } : SourceState) = s := by
            cases s
            simp_all
          rw [hs]
          exact ih s h1 h2
      | ext k => exact ih s h1 h2

lemma run_handlers_clears (s : SourceState) (fired : List EngineHandler)
    (h : EngineHandler.clear_order ∈ fired) :
    s.run_handlers fired = { s with order := none, order_promise := none } := by
  induction fired generalizing s with
  | nil => cases h
  | cons f fs ih =>
      rw [run_handlers_cons]
      cases f with
      | clear_order => exact run_handlers_cleared _ _ rfl rfl
      | ext k =>
          have hm : EngineHandler.clear_order ∈ fs := by
            rcases List.mem_cons.mp h with h1 | h1
            · exact absurd h1 (by simp)
            · exact h1
          exact ih s hm

/-- C3: submitting any order while one is already queued (a promise is in
the slot) raises `OrderQueueError` and leaves the whole state untouched: the
first component of `update_order` is the unchanged state, no order is
stored, and no new promise is created. -/
theorem C3_thm (s : SourceState) (o : Order) (h : s.order_promise.isSome) :
    s.update_order o = (s, .error (.orderQueueError "Order already being fulfilled")) := by
  simp [SourceState.update_order, SourceState.order_in_progress, h]

/-- A concrete state with a queued order and a pending promise. -/
def sC3 : SourceState :=
  { balance := 0, price := none, curr_order := none, curr_order_price := none,
    order := some { signal := .out, volume := none },
    order_promise := some Promise.empty }

/-- Witness for C3 at a concrete busy state. -/
theorem C3_witness :
    sC3.update_order { signal := .buy, volume := some 1 } =
      (sC3, .error (.orderQueueError "Order already being fulfilled")) :=
  C3_thm _ _ rfl

/-- C4 (amended): when the fulfillment step runs with a queued buy or sell
order, the open position (if any) carries the same signal, and the entry
cost `price * volume` exceeds the balance, the promise is rejected with
"Account balance too low", no position is opened, balance and position are
untouched, and the queue slot is cleared by the always handler. -/
theorem C4_amended (s : SourceState) (o : Order) (v : ℤ) (pr : ℚ) (p : EPromise)
    (ho : s.order = some o) (hsig : o.signal ≠ OrderSignal.out)
    (hv : o.volume = some v) (hp : s.price = some pr)
    (hq : s.order_promise = some p) (hpend : p.done_success = none)
    (hclear : EngineHandler.clear_order ∈ p.always_handlers)
    (hflat : ∀ co, s.curr_order = some co → co.signal = o.signal)
    (hcost : s.balance < pr * v) :
    s.fulfill_order =
      .ok ({ s with order := none, order_promise := none },
           [TraceEv.settle false ["Account balance too low"]
              (p.catch_handlers ++ p.always_handlers)]) := by
  have hflat2 : (match s.curr_order with
      | some co =>
          if o.signal ≠ co.signal then s.fulfill_order_out false else .ok (s, [])
      | none => .ok (s, ([] : List TraceEv))) = .ok (s, []) := by
    rcases hco : s.curr_order with _ | co
    · rfl
    · simp [hflat co hco]
  have hfired : EngineHandler.clear_order ∈ p.catch_handlers ++ p.always_handlers :=
    List.mem_append.mpr (Or.inr hclear)
  simp only [SourceState.fulfill_order, ho, if_neg hsig,
             SourceState.fulfill_order_in, hflat2, hp, hv, if_pos hcost,
             SourceState.settle, hq, Promise.reject, hpend]
  simp [run_handlers_clears _ _ hfired]

/-- A concrete affordability-failure state: balance 9, price 10, queued buy
of volume 1, no open position. -/
def sC4w : SourceState :=
  { balance := 9, price := some 10, curr_order := none, curr_order_price := none,
    order := some { signal := .buy, volume := some 1 },
    order_promise := some
      { then_handlers := [], catch_handlers := [],
        always_handlers := [.clear_order], done_success := none, done_args := none } }

/-- Witness for the amended C4 at the worked insufficient-balance scenario. -/
theorem C4_witness :
    sC4w.fulfill_order =
      .ok ({ sC4w with order := none, order_promise := none },
           [TraceEv.settle false ["Account balance too low"] [.clear_order]]) :=
  C4_amended sC4w _ 1 10 _ rfl (by decide) rfl rfl rfl rfl (by decide)
    (by intro co hco; cases hco) (by norm_num [sC4w])

/-- A concrete signal-flip state: open sell position of volume 2 entered at
20, current price 30, balance 0, queued buy of volume 100. -/
def sC4 : SourceState :=
  { balance := 0, price := some 30,
    curr_order := some { signal := .sell, volume := some 2 },
    curr_order_price := some 20,
    order := some { signal := .buy, volume := some 100 },
    order_promise := some
      { then_handlers := [], catch_handlers := [],
        always_handlers := [.clear_order], done_success := none, done_args := none } }

/-- C4 (counterexample): at `sC4` the entry cost (3000) exceeds the balance
both before (0) and after (20) the implicit flatten, and the order is indeed
rejected with "Account balance too low" — but the balance ends at 20, not at
its starting value 0, so the balance is not left untouched as the claim
states. -/
theorem C4_counterexample :
    sC4.fulfill_order =
      .ok ({ sC4 with balance := 20, order := none, order_promise := none },
           [TraceEv.balance_set 20,
            TraceEv.settle false ["Account balance too low"] [.clear_order]])
    ∧ ({ sC4 with balance := 20, order := none, order_promise := none }
        : SourceState).balance ≠ sC4.balance := by
  constructor
  · simp only [sC4, SourceState.fulfill_order, SourceState.fulfill_order_in,
               SourceState.fulfill_order_out, SourceState.balance_total,
               order_single, order_gain, SourceState.settle, Promise.reject,
               SourceState.run_handlers]
    simp
    norm_num
  · simp [sC4]

/-- C5: fulfilling a queued buy/sell order against an open position of the
opposite signal first realizes the old position into the balance (without
settling any promise for that leg); if the entry cost still exceeds the new
balance the promise is rejected, yet the realized gain stays in the balance
and the old position record is left in place. -/
theorem C5_thm (s : SourceState) (o co : Order) (v cv : ℤ) (pr cop g : ℚ)
    (p : EPromise)
    (ho : s.order = some o) (hsig : o.signal ≠ OrderSignal.out)
    (hv : o.volume = some v)
    (hco : s.curr_order = some co) (hdiff : ¬ o.signal = co.signal)
    (hcv : co.volume = some cv) (hcop : s.curr_order_price = some cop)
    (hp : s.price = some pr)
    (hg : order_single co.signal cop pr = .ok g)
    (hq : s.order_promise = some p) (hpend : p.done_success = none)
    (hclear : EngineHandler.clear_order ∈ p.always_handlers)
    (hcost : s.balance + cv * g < pr * v) :
    s.fulfill_order =
      .ok ({ s with balance := s.balance + cv * g,
                    order := none, order_promise := none },
           [TraceEv.balance_set (s.balance + cv * g),
            TraceEv.settle false ["Account balance too low"]
              (p.catch_handlers ++ p.always_handlers)]) := by
  have hfired : EngineHandler.clear_order ∈ p.catch_handlers ++ p.always_handlers :=
    List.mem_append.mpr (Or.inr hclear)
  have hflat : s.fulfill_order_out false =
      .ok ({ s with balance := s.balance + cv * g },
           [TraceEv.balance_set (s.balance + cv * g)]) := by
    simp only [SourceState.fulfill_order_out, hco, SourceState.balance_total,
               hcv, hcop, hp, hg]
    simp [hp, hco, hcop]
  simp only [SourceState.fulfill_order, ho, if_neg hsig,
             SourceState.fulfill_order_in, hco, if_pos hdiff, hflat, hp, hv,
             SourceState.settle, hq, Promise.reject, hpend]
  simp only [if_pos hcost]
  simp [run_handlers_clears _ _ hfired]

/-- A concrete signal-flip state for the C5 witness: open sell position of
volume 2 at entry 20, price 30, balance 0, queued buy of volume 100. -/
def sC5 : SourceState :=
  { balance := 0, price := some 30,
    curr_order := some { signal := .sell, volume := some 2 },
    curr_order_price := some 20,
    order := some { signal := .buy, volume := some 100 },
    order_promise := some
      { then_handlers := [], catch_handlers := [],
        always_handlers := [.clear_order], done_success := none, done_args := none } }

/-- Witness for C5 at `sC5`: the flatten credit (2 x settle(sell, 20, 30)
= 20) lands in the balance even though the buy order is rejected, and the
old sell position record survives in the resulting state. -/
theorem C5_witness :
    sC5.fulfill_order =
      .ok ({ sC5 with balance := sC5.balance + ((2 : ℤ) : ℚ) * 10,
                      order := none, order_promise := none },
           [TraceEv.balance_set (sC5.balance + ((2 : ℤ) : ℚ) * 10),
            TraceEv.settle false ["Account balance too low"]
              (([] : List EngineHandler) ++ [.clear_order])]) :=
  C5_thm sC5 { signal := .buy, volume := some 100 }
    { signal := .sell, volume := some 2 } 100 2 30 20 10 _
    rfl (by decide) rfl rfl (by decide) rfl rfl rfl
    (by norm_num [order_single, order_gain]) rfl rfl (by decide)
    (by norm_num [sC5])

/-- The promise and state of the missing-settlement exhibit: balance 960,
open buy position of volume 2 entered at 20, current price 40, queued `out`
order with its pending promise. -/
def pC1 : EPromise :=
  { then_handlers := [], catch_handlers := [], always_handlers := [.clear_order],
    done_success := none, done_args := none }

/-- See `pC1`. -/
def sC1 : SourceState :=
  { balance := 960, price := some 40,
    curr_order := some { signal := .buy, volume := some 2 },
    curr_order_price := some 20,
    order := some { signal := .out, volume := none },
    order_promise := some pC1 }

/-- C1 (bug exhibit): fulfilling the queued `out` order at `sC1` realizes
the position into the balance (1040) and clears the open position, but emits
no settlement: the promise is left pending and the queue slot still holds
the order and the promise, contrary to the documented lifecycle. -/
theorem C1_bug :
    sC1.fulfill_order =
      .ok ({ sC1 with balance := 1040, curr_order := none,
                      curr_order_price := none },
           [TraceEv.balance_set 1040])
    ∧ ({ sC1 with balance := 1040, curr_order := none, curr_order_price := none }
        : SourceState).order_promise = some pC1
    ∧ pC1.done_success = none
    ∧ ({ sC1 with balance := 1040, curr_order := none, curr_order_price := none }
        : SourceState).order = some { signal := .out, volume := none } := by
  refine ⟨?_, rfl, rfl, rfl⟩
  simp only [sC1, SourceState.fulfill_order, SourceState.fulfill_order_out,
             SourceState.balance_total, order_single, order_gain]
  norm_num

lemma foldl_on_bar (s : BaseSource ℕ) (fs : List ℕ) :
    fs.foldl BaseSource.on_bar s = { s with bar_handlers := s.bar_handlers ++ fs } := by
  induction fs generalizing s with
  | nil => simp
  | cons f fs ih => simp [List.foldl_cons, BaseSource.on_bar, ih]

/-- C8: dispatching a bar through `_add_bar` sets the current price to the
bar close when present, else to the bar open when present, else leaves it
unchanged; then every bar subscriber — here, those already in `s` followed
by the ones added with `on_bar`, in registration order — is invoked with the
bar. -/
theorem C8_thm (s : BaseSource ℕ) (fs : List ℕ) (b : Bar) :
    ((fs.foldl BaseSource.on_bar s).add_bar b).1.current_price =
        (if b.close.isSome then b.close
         else if b.open_.isSome then b.open_
         else s.current_price)
    ∧ ((fs.foldl BaseSource.on_bar s).add_bar b).2 = s.bar_handlers ++ fs := by
  rw [foldl_on_bar]
  rcases hc : b.close with _ | c <;> rcases ho : b.open_ with _ | o <;>
    simp [BaseSource.add_bar, hc, ho]

lemma digit_char_isDigit (n : ℕ) (h : n < 10) : (digit_char n).isDigit = true := by
  interval_cases n <;> decide

lemma digit_char_toNat (n : ℕ) (h : n < 10) : (digit_char n).toNat = 48 + n := by
  interval_cases n <;> decide

lemma nat_digits_ne_nil (n : ℕ) : nat_digits n ≠ [] := by
  rw [nat_digits]
  split <;> simp

lemma nat_digits_all_digit (n : ℕ) : ∀ c ∈ nat_digits n, c.isDigit = true := by
  induction n using Nat.strong_induction_on with
  | _ n ih =>
      rw [nat_digits]
      split
      · next h =>
          intro c hc
          simp only [List.mem_singleton] at hc
          subst hc
          exact digit_char_isDigit n h
      · next h =>
          intro c hc
          rcases List.mem_append.mp hc with hc | hc
          · exact ih (n / 10) (Nat.div_lt_self (by omega) (by omega)) c hc
          · simp only [List.mem_singleton] at hc
            subst hc
            exact digit_char_isDigit _ (Nat.mod_lt _ (by omega))

lemma list_to_nat_append_singleton (l : List Char) (c : Char) :
    list_to_nat (l ++ [c]) = 10 * list_to_nat l + (c.toNat - 48) := by
  simp [list_to_nat, List.foldl_append]

lemma list_to_nat_nat_digits (n : ℕ) : list_to_nat (nat_digits n) = n := by
  induction n using Nat.strong_induction_on with
  | _ n ih =>
      rw [nat_digits]
      split
      · next h =>
          simp only [list_to_nat, List.foldl_cons, List.foldl_nil]
          rw [digit_char_toNat n h]
          omega
      · next h =>
          rw [list_to_nat_append_singleton,
              ih (n / 10) (Nat.div_lt_self (by omega) (by omega)),
              digit_char_toNat _ (Nat.mod_lt _ (by omega))]
          omega

lemma takeWhile_digit_append (l r : List Char) (hl : ∀ c ∈ l, c.isDigit = true) :
    (l ++ r).takeWhile Char.isDigit = l ++ r.takeWhile Char.isDigit := by
  induction l with
  | nil => simp
  | cons a as ih =>
      have ha := hl a (by simp)
      simp only [List.cons_append, List.takeWhile_cons, ha, if_true]
      rw [ih (fun c hc => hl c (by simp [hc]))]

lemma dropWhile_digit_append (l r : List Char) (hl : ∀ c ∈ l, c.isDigit = true) :
    (l ++ r).dropWhile Char.isDigit = r.dropWhile Char.isDigit := by
  induction l with
  | nil => simp
  | cons a as ih =>
      have ha := hl a (by simp)
      simp only [List.cons_append, List.dropWhile_cons, ha, if_true]
      exact ih (fun c hc => hl c (by simp [hc]))

lemma dropWhile_not_digit_head (l r : List Char) (hne : l ≠ [])
    (hl : ∀ c ∈ l, c.isDigit = true) :
    (l ++ r).dropWhile (fun c => !c.isDigit) = l ++ r := by
  cases l with
  | nil => exact absurd rfl hne
  | cons a as =>
      have ha := hl a (by simp)
      simp [List.dropWhile_cons, ha]

lemma period_split_append (ds rest : List Char) (h1 : ds ≠ [])
    (h2 : ∀ c ∈ ds, c.isDigit = true)
    (h3 : rest.takeWhile Char.isDigit = [])
    (h4 : rest.dropWhile Char.isDigit = rest) :
    period_split (ds ++ rest) = some (ds, rest.takeWhile (fun c => c != '\n')) := by
  simp only [period_split, dropWhile_not_digit_head ds rest h1 h2]
  cases ds with
  | nil => exact absurd rfl h1
  | cons a as =>
      simp only [List.cons_append]
      rw [← List.cons_append, takeWhile_digit_append _ _ h2,
          dropWhile_digit_append _ _ h2, h3, h4, List.append_nil]

/-- The canonical textual form of a parsed period: the decimal count, a
space, and the full unit name (as the repr in `bar.py` renders it). -/
def period_canonical (n : ℕ) (u : BarPeriod) : String :=
  String.mk (nat_digits n ++ ' ' :: (unit_text u).data)

lemma unit_roundtrip (u : BarPeriod) :
    match_unit (strip_ws (((' ' :: (unit_text u).data).takeWhile
      (fun c => c != '\n')).map Char.toLower)) = .ok u := by
  cases u <;> rfl

/-- C7: parsing the string "30m" and the pre-parsed pair `(30, minutes)`
yield the same representation `(30, minutes)`; and for every count and
unit, parsing the canonical string form gives back exactly that count and
unit. -/
theorem C7_thm :
    (period_set (.str "30m") = .ok (some ((30 : ℤ), BarPeriod.minutes))
      ∧ period_set (.pair_ [.int_ 30, .unit_ BarPeriod.minutes])
          = .ok (some ((30 : ℤ), BarPeriod.minutes))
      ∧ period_set (.str "30m")
          = period_set (.pair_ [.int_ 30, .unit_ BarPeriod.minutes]))
    ∧ ∀ (n : ℕ) (u : BarPeriod),
        period_set (.str (period_canonical n u)) = .ok (some ((n : ℤ), u)) := by
  refine ⟨⟨rfl, rfl, rfl⟩, ?_⟩
  intro n u
  have h1 := nat_digits_ne_nil n
  have h2 := nat_digits_all_digit n
  have hsp : (' ' :: (unit_text u).data).takeWhile Char.isDigit = [] := by
    cases u <;> rfl
  have hsd : (' ' :: (unit_text u).data).dropWhile Char.isDigit
      = ' ' :: (unit_text u).data := by
    cases u <;> rfl
  have hsplit := period_split_append (nat_digits n) (' ' :: (unit_text u).data)
    h1 h2 hsp hsd
  have hdata : (period_canonical n u).data
      = nat_digits n ++ ' ' :: (unit_text u).data := rfl
  simp only [period_set, hdata, hsplit, unit_roundtrip u,
             list_to_nat_nat_digits]

lemma ws_not_digit {c : Char} (h : c.isWhitespace = true) : c.isDigit = false := by
  simp only [Char.isWhitespace, Bool.or_eq_true, decide_eq_true_eq] at h
  rcases h with ((h | h) | h) | h <;> subst h <;> decide

lemma toLower_ws {c : Char} (h : c.isWhitespace = true) :
    (c.toLower).isWhitespace = true := by
  simp only [Char.isWhitespace, Bool.or_eq_true, decide_eq_true_eq] at h
  rcases h with ((h | h) | h) | h <;> subst h <;> decide

lemma mem_of_mem_takeWhile {p : Char → Bool} {l : List Char} {c : Char}
    (h : c ∈ l.takeWhile p) : c ∈ l := by
  induction l with
  | nil => simp at h
  | cons a as ih =>
      rw [List.takeWhile_cons] at h
      by_cases hp : p a
      · rw [if_pos hp] at h
        rcases List.mem_cons.mp h with h | h
        · simp [h]
        · simp [ih h]
      · rw [if_neg hp] at h
        simp at h

lemma strip_ws_of_all_ws (l : List Char) (h : ∀ c ∈ l, c.isWhitespace = true) :
    strip_ws l = [] := by
  have h1 : l.dropWhile Char.isWhitespace = [] :=
    List.dropWhile_eq_nil_iff.mpr (fun c hc => h c hc)
  simp [strip_ws, h1]

/-- C10: any period string made of one or more digits followed by nothing
but whitespace parses successfully to the digit value with unit `seconds`,
because the stripped empty unit text is a prefix of "seconds". -/
theorem C10_thm (ds ws : List Char) (h1 : ds ≠ [])
    (h2 : ∀ c ∈ ds, c.isDigit = true) (h3 : ∀ c ∈ ws, c.isWhitespace = true) :
    period_set (.str (String.mk (ds ++ ws))) =
      .ok (some ((list_to_nat ds : ℤ), BarPeriod.seconds)) := by
  have hwt : ws.takeWhile Char.isDigit = [] := by
    cases ws with
    | nil => rfl
    | cons a as =>
        have := ws_not_digit (h3 a (by simp))
        simp [List.takeWhile_cons, this]
  have hwd : ws.dropWhile Char.isDigit = ws := by
    cases ws with
    | nil => rfl
    | cons a as =>
        have := ws_not_digit (h3 a (by simp))
        simp [List.dropWhile_cons, this]
  have hsplit := period_split_append ds ws h1 h2 hwt hwd
  have hstrip : strip_ws ((ws.takeWhile (fun c => c != '\n')).map Char.toLower) = [] := by
    apply strip_ws_of_all_ws
    intro c hc
    rcases List.mem_map.mp hc with ⟨d, hd, hdc⟩
    subst hdc
    exact toLower_ws (h3 d (mem_of_mem_takeWhile hd))
  have hdata : (String.mk (ds ++ ws)).data = ds ++ ws := rfl
  simp only [period_set, hdata, hsplit, hstrip]
  rfl

/-- Witness for C10 at the concrete input "30  ". -/
theorem C10_witness :
    period_set (.str (String.mk (['3', '0'] ++ [' ', ' ']))) =
      .ok (some ((list_to_nat ['3', '0'] : ℤ), BarPeriod.seconds)) :=
  C10_thm ['3', '0'] [' ', ' '] (by decide) (by decide) (by decide)

/-- C9: constructing a bar whose parsed high is below its parsed low always
fails with the validation error naming both raw values, whatever the period
argument; all-blank textual fields construct a bar with every field absent
(blanks are not errors); and when high is at least low, or either is absent,
construction succeeds with the parsed fields. -/
theorem C9_thm :
    (∀ (per : PeriodInput) (ro rh rl rc rv : Raw) (ov cv : Option ℚ)
        (vv : Option ℤ) (hq lq : ℚ),
        parse_field ro = .ok ov → parse_field rh = .ok (some hq) →
        parse_field rl = .ok (some lq) → parse_field rc = .ok cv →
        parse_vol rv = .ok vv → hq < lq →
        Bar.mk_checked per ro rh rl rc rv =
          .error (.valueError ("High (" ++ raw_str rh ++ ") is less than low ("
                               ++ raw_str rl ++ ")")))
    ∧ Bar.mk_checked (.str "") (.str "") (.str "") (.str "") (.str "") (.str "") =
        .ok { open_ := none, high := none, low := none, close := none,
              volume := none, period := none }
    ∧ (∀ (per : PeriodInput) (ro rh rl rc rv : Raw) (ov hv lv cv : Option ℚ)
        (vv : Option ℤ) (pv : Option (ℤ × BarPeriod)),
        parse_field ro = .ok ov → parse_field rh = .ok hv →
        parse_field rl = .ok lv → parse_field rc = .ok cv →
        parse_vol rv = .ok vv →
        period_set (blank_to_none per) = .ok pv →
        (∀ hq lq, hv = some hq → lv = some lq → lq ≤ hq) →
        Bar.mk_checked per ro rh rl rc rv =
          .ok { open_ := ov, high := hv, low := lv, close := cv,
                volume := vv, period := pv }) := by
  refine ⟨?_, rfl, ?_⟩
  · intro per ro rh rl rc rv ov cv vv hq lq hov hhv hlv hcv hvv hlt
    simp only [Bar.mk_checked, hov, hhv, hlv, hcv, hvv, if_pos hlt]
  · intro per ro rh rl rc rv ov hv lv cv vv pv hov hhv hlv hcv hvv hper hok
    simp only [Bar.mk_checked, hov, hhv, hlv, hcv, hvv]
    rcases hhq : hv with _ | hq <;> rcases hlq : lv with _ | lq
    · simp only [hper]
    · simp only [hper]
    · simp only [hper]
    · have hnl : ¬ hq < lq := not_lt.mpr (hok hq lq hhq hlq)
      simp only [if_neg hnl, hper]

/-- Witness for C9: high 5 against low 10 is rejected with the message
naming both, and high 10 against low 5 constructs successfully. -/
theorem C9_witness :
    Bar.mk_checked .none_ .none_ (.str "5") (.str "10") .none_ .none_ =
        .error (.valueError ("High (" ++ raw_str (.str "5")
                             ++ ") is less than low (" ++ raw_str (.str "10") ++ ")"))
    ∧ Bar.mk_checked .none_ .none_ (.str "10") (.str "5") .none_ .none_ =
        .ok { open_ := none, high := some 10, low := some 5, close := none,
              volume := none, period := none }
    ∧ ("High (" ++ raw_str (.str "5") ++ ") is less than low ("
        ++ raw_str (.str "10") ++ ")") = "High (5) is less than low (10)" := by
  refine ⟨?_, ?_, rfl⟩
  · exact C9_thm.1 .none_ .none_ (.str "5") (.str "10") .none_ .none_ none none
      none 5 10 rfl rfl rfl rfl rfl (by norm_num)
  · exact C9_thm.2.2 .none_ .none_ (.str "10") (.str "5") .none_ .none_ none
      (some 10) (some 5) none none none rfl rfl rfl rfl rfl rfl
      (by intro hq lq h1 h2; cases h1; cases h2; norm_num)

end MT
